import Mathlib

/-!
# Verification of the lumecode agent-orchestration core

Shallow embedding of the lumecode backend: the plugin registry
(`backend/plugins/interface.py`) and the result aggregator
(`backend/analysis/aggregator.py`) are translated from their Python source;
the runtime/scheduler, message bus, sandbox and result-processing pipeline
(package `backend/agents`, absent from the source tree — only its tests are
present) are modelled from the specification document.
-/

namespace Lume

/-- JSON-like values used for message content, payloads and result data. -/
inductive JVal where
  | s : String → JVal
  | n : Nat → JVal
  | b : Bool → JVal
  | obj : List (String × JVal) → JVal

/-- Association-list lookup, first binding wins (Python `dict.get`). -/
def lookupA {α : Type} : List (String × α) → String → Option α
  | [], _ => none
  | (k, v) :: rest, key => if k = key then some v else lookupA rest key

/-- Association-list update (Python `d[k] = v`): replace the first binding
of the key in place, or append a new binding. -/
def setA {α : Type} : List (String × α) → String → α → List (String × α)
  | [], key, v => [(key, v)]
  | (k, w) :: rest, key, v =>
      if k = key then (key, v) :: rest else (k, w) :: setA rest key v

end Lume

namespace Lume.Comm

/-- Message types of the bus (`MessageType` in the tests of
`backend/agents/communication.py`). -/
inductive MessageType where
  | REQUEST | RESPONSE | EVENT | COMMAND | STATUS | ERROR
deriving DecidableEq

/-- Message priorities (`MessagePriority`). -/
inductive MessagePriority where
  | LOW | NORMAL | HIGH
deriving DecidableEq

/-- Modelled from the spec: the `Message` wire shape of
`backend/agents/communication.py` (absent from the tree), `{id, type,
source, target?, content, priority, correlation_id?, timestamp}`. -/
structure Message where
  id : String
  type : MessageType
  source : String
  target : Option String := none
  content : List (String × JVal) := []
  priority : MessagePriority := .NORMAL
  correlation_id : Option String := none
  timestamp : Nat

/-- Modelled from the spec: `Message.create_request`. The generated uuid and
clock reading are passed in as `fresh` and `now`. -/
def createRequest (fresh : String) (now : Nat) (source target : String)
    (content : List (String × JVal))
    (priority : MessagePriority := .NORMAL) : Message :=
  { id := fresh, type := .REQUEST, source := source, target := some target,
    content := content, priority := priority, correlation_id := none,
    timestamp := now }

/-- Modelled from the spec: `Message.create_response` — built in answer to a
REQUEST, with `correlation_id = request.id`, `target = request.source`, and
the request's priority inherited. -/
def createResponse (fresh : String) (now : Nat) (request : Message)
    (source : String) (content : List (String × JVal)) : Message :=
  { id := fresh, type := .RESPONSE, source := source,
    target := some request.source, content := content,
    priority := request.priority, correlation_id := some request.id,
    timestamp := now }

/-- Modelled from the spec: `Message.create_error` — built in answer to a
REQUEST, with content `{error, details?}`, `correlation_id = request.id`,
`target = request.source`, and HIGH priority. -/
def createError (fresh : String) (now : Nat) (request : Message)
    (source : String) (error : String)
    (details : Option (List (String × JVal))) : Message :=
  { id := fresh, type := .ERROR, source := source,
    target := some request.source,
    content := ("error", JVal.s error) ::
      (match details with
       | some d => [("details", JVal.obj d)]
       | none => []),
    priority := .HIGH, correlation_id := some request.id, timestamp := now }

/-- Modelled from the spec: the `MessageBus` state of
`backend/agents/communication.py` (absent from the tree) — ordered handler
lists per channel (channel `*` is the broadcast channel), an internal
delivery queue drained by the dispatch loop, and a running flag.  Handlers
are identified by numeric tokens. -/
structure MessageBus where
  subscribers : List (String × List Nat) := []
  queue : List Message := []
  running : Bool := false

/-- Modelled from the spec: `MessageBus.subscribe(channel, handler)` —
appends the handler to the channel's ordered handler list. -/
def subscribe (bus : MessageBus) (channel : String) (handler : Nat) :
    MessageBus :=
  { bus with subscribers := (setA bus.subscribers channel
      ((lookupA bus.subscribers channel).getD [] ++ [handler])) }

/-- The ordered handler list of a channel (empty when unsubscribed). -/
def channelHandlers (bus : MessageBus) (channel : String) : List Nat :=
  (lookupA bus.subscribers channel).getD []

/-- Modelled from the spec: `MessageBus.publish(message)` — non-blocking
handoff onto the internal delivery queue. -/
def publish (bus : MessageBus) (m : Message) : MessageBus :=
  { bus with queue := bus.queue ++ [m] }

/-- Modelled from the spec: delivery of one queued message by the dispatch
loop — to the subscribers of `message.target` when set, otherwise to the
subscribers of the broadcast channel `*`, in per-channel order. -/
def deliverOne (bus : MessageBus) (m : Message) : List (Nat × Message) :=
  match m.target with
  | some t => (channelHandlers bus t).map (fun h => (h, m))
  | none => (channelHandlers bus "*").map (fun h => (h, m))

/-- Modelled from the spec: the dispatch loop draining the delivery queue,
producing the delivery events in queue order and emptying the queue. -/
def dispatchAll (bus : MessageBus) : List (Nat × Message) × MessageBus :=
  ((bus.queue.map (deliverOne bus)).flatten, { bus with queue := [] })

/-- Faults raised by `MessageBus.request`. -/
inductive BusFault where
  | messagingTimeout : BusFault
  | remoteError : List (String × JVal) → BusFault

/-- Modelled from the spec: `MessageBus.request(message, timeout)` — the
caller suspends until a message with `correlation_id == message.id` arrives
or the timeout elapses.  `arrivals` is the time-ordered list of
`(arrival time, message)` events the suspended caller observes; the first
correlated arrival within the timeout resolves the call: an ERROR-type
message raises `RemoteError` carrying its content, any other correlated
message is returned, and with no correlated arrival within the timeout a
`MessagingTimeoutFault` is raised. -/
def requestCall (m : Message) (timeout : Nat)
    (arrivals : List (Nat × Message)) : Except BusFault Message :=
  match arrivals.find?
      (fun a => decide (a.1 ≤ timeout) && decide (a.2.correlation_id = some m.id)) with
  | none => .error .messagingTimeout
  | some a =>
      if a.2.type = .ERROR then .error (.remoteError a.2.content) else .ok a.2

end Lume.Comm

namespace Lume.Agents

/-- Agent task statuses (`AgentStatus` in the runtime tests). -/
inductive AgentStatus where
  | CREATED | RUNNING | COMPLETED | ERROR | TERMINATED
deriving DecidableEq

/-- Runtime statuses (`RuntimeStatus` in the runtime tests). -/
inductive RuntimeStatus where
  | IDLE | RUNNING | TERMINATED
deriving DecidableEq

/-- Modelled from the spec: the `AgentTask` record of
`backend/agents` (absent from the tree). -/
structure AgentTask where
  execution_id : String
  status : AgentStatus
  start_time : Nat
  result : Option JVal := none
  error : Option String := none
  workspace_path : String

/-- Modelled from the spec: the `AgentRuntime` state — status, concurrency
and time budgets, and the task table. -/
structure AgentRuntime where
  status : RuntimeStatus := .IDLE
  max_concurrent_agents : Nat
  max_execution_time : Nat
  workspace_dir : String
  tasks : List (String × AgentTask) := []

/-- Number of tasks currently RUNNING. -/
def runningCount (rt : AgentRuntime) : Nat :=
  (rt.tasks.filter (fun t => t.2.status = AgentStatus.RUNNING)).length

/-- Admission fault: capacity exceeded, a synchronous hard rejection. -/
inductive AdmissionFault where
  | capacityExceeded
deriving DecidableEq

/-- Modelled from the spec: `AgentRuntime.start_agent` — precondition
`running < max_concurrent_agents`, else it fails immediately with an
`AdmissionFault` (no queuing) and the runtime is unchanged; on admission it
creates the task (status RUNNING, per-task workspace) and returns the fresh
execution id without waiting for completion. -/
def startAgent (rt : AgentRuntime) (fresh : String) (now : Nat) :
    Except AdmissionFault String × AgentRuntime :=
  if rt.max_concurrent_agents ≤ runningCount rt then
    (.error .capacityExceeded, rt)
  else
    (.ok fresh,
     { rt with status := .RUNNING,
               tasks := setA rt.tasks fresh
                 { execution_id := fresh, status := .RUNNING,
                   start_time := now,
                   workspace_path := rt.workspace_dir ++ "/" ++ fresh } })

/-- Fault for unknown execution ids / unresolvable names. -/
inductive NotFoundFault where
  | notFound (name : String)
deriving DecidableEq

/-- Modelled from the spec: `AgentRuntime.get_agent_status(execution_id)` —
a non-suspending read of the task snapshot, failing with `NotFoundFault`
for an unknown id. -/
def getAgentStatus (rt : AgentRuntime) (execution_id : String) :
    Except NotFoundFault AgentTask :=
  match lookupA rt.tasks execution_id with
  | none => .error (.notFound execution_id)
  | some t => .ok t

/-- The timeout error message recorded by the monitor (the runtime tests
check that the message contains "timed out"). -/
def timeoutMsg (maxExec : Nat) : String :=
  "Agent execution timed out after " ++ Nat.repr maxExec ++ " seconds"

/-- Modelled from the spec: one check of the per-task timeout monitor at
time `now` — a RUNNING task whose `max_execution_time` has expired is
marked ERROR with a message indicating a timeout; any other task is left
unchanged. -/
def monitorCheck (maxExec : Nat) (now : Nat) (t : AgentTask) : AgentTask :=
  if t.status = AgentStatus.RUNNING ∧ t.start_time + maxExec ≤ now then
    { t with status := .ERROR, error := some (timeoutMsg maxExec) }
  else t

/-- The timeout monitor polling at the given tick times, in order. -/
def runMonitor (maxExec : Nat) (ticks : List Nat) (t : AgentTask) :
    AgentTask :=
  ticks.foldl (fun acc tick => monitorCheck maxExec tick acc) t

end Lume.Agents

namespace Lume.Sandbox

/-- The fault type `SandboxException` from `backend/agents/sandbox.py` (absent from the
tree): the boundary-violation fault, raised fail-closed. -/
inductive SandboxException where
  | violation
deriving DecidableEq

/-- Predicate: `root` lies above `path`: the components of `root` lead the resolved
component list of `path`. -/
def pathUnder : List String → List String → Bool
  | [], _ => true
  | _ :: _, [] => false
  | r :: rs, p :: ps => if r = p then pathUnder rs ps else false

/-- Modelled from the spec: `Sandbox.validate_file_access(path)` — returns
`true` iff the path resolves under a configured allowed root, and raises
`SandboxFault` otherwise.  Path resolution (OS-dependent) is abstracted as
the `resolve` function into component lists; `allowed_paths` are the
configured root component lists. -/
def validateFileAccess (resolve : String → List String)
    (allowed_paths : List (List String)) (path : String) :
    Except SandboxException Bool :=
  if allowed_paths.any (fun root => pathUnder root (resolve path)) then
    .ok true
  else .error .violation

/-- Modelled from the spec: `NetworkSandbox.validate_url(url)` — the
domain-allowlist check; `domainOf` abstracts URL parsing into the domain
component. -/
def validateUrl (domainOf : String → String) (allowed_domains : List String)
    (url : String) : Except SandboxException Bool :=
  if domainOf url ∈ allowed_domains then .ok true
  else .error .violation

/-- An HTTP response as captured by `safe_request`. -/
structure HttpResponse where
  status_code : Nat
  text : String

/-- Modelled from the spec: `NetworkSandbox.safe_request(url)` — the
allowlist check runs strictly before any outbound call; a disallowed
domain raises `SandboxFault` with zero network attempts made.  The network
is abstracted as the oracle `net`; the second component counts the
outbound attempts actually made. -/
def safeRequest (net : String → HttpResponse)
    (domainOf : String → String) (allowed_domains : List String)
    (url : String) : Except SandboxException HttpResponse × Nat :=
  match validateUrl domainOf allowed_domains url with
  | .error e => (.error e, 0)
  | .ok _ => (.ok (net url), 1)

end Lume.Sandbox

namespace Lume.Proc

/-- Pipeline stages (`ProcessingStage`), in their fixed running order
FILTERED → ENRICHED → PRIORITIZED. -/
inductive ProcessingStage where
  | FILTERED | ENRICHED | PRIORITIZED
deriving DecidableEq

/-- Rule-combination strategies (`ProcessingStrategy`). -/
inductive ProcessingStrategy where
  | SEQUENTIAL | PARALLEL | BATCH
deriving DecidableEq

/-- A result payload: a key-value record.  The empty record is the
"empty payload" that drops a result. -/
def Payload : Type := List (String × JVal)

/-- Modelled from the spec: a `ProcessingRule` of
`backend/agents/processor.py` (absent from the tree) — `{name, description,
stage, condition, action, priority, enabled}`; the action produces a new
payload or nothing. -/
structure ProcessingRule where
  name : String
  description : String
  stage : ProcessingStage
  condition : Payload → Bool
  action : Payload → Option Payload
  priority : Nat := 0
  enabled : Bool := true

/-- Modelled from the spec: a `ProcessingContext` — per-result bookkeeping
with an append-only `processing_history` of `(stage, timestamp)` entries. -/
structure ProcessingContext where
  agent_id : String
  result_id : String
  timestamp : Nat
  metadata : List (String × JVal) := []
  processing_history : List (ProcessingStage × Nat) := []

/-- Modelled from the spec: the `ResultProcessor` state — the rule registry
(in registration order) and the selected strategy. -/
structure ResultProcessor where
  rules : List ProcessingRule
  processing_strategy : ProcessingStrategy := .SEQUENTIAL

/-- Insertion step of the stable priority sort: place `r` right before the
first rule of no higher priority (rules already present there registered
earlier and keep their place on ties). -/
def insertDesc (r : ProcessingRule) :
    List ProcessingRule → List ProcessingRule
  | [] => [r]
  | x :: xs =>
      if x.priority ≤ r.priority then r :: x :: xs else x :: insertDesc r xs

/-- Stable sort by descending priority (insertion sort): equal priorities
stay in registration order. -/
def sortDesc : List ProcessingRule → List ProcessingRule
  | [] => []
  | x :: xs => insertDesc x (sortDesc xs)

/-- The enabled-agnostic rule list of one stage, in priority order
(descending, registration order breaking ties). -/
def stageRules (proc : ResultProcessor) (st : ProcessingStage) :
    List ProcessingRule :=
  sortDesc (proc.rules.filter (fun r => r.stage = st))

/-- Empty-payload test (Python falsiness of the evolving payload). -/
def Payload.isEmptyP (p : Payload) : Bool :=
  match p with
  | [] => true
  | _ :: _ => false

/-- Modelled from the spec, SEQUENTIAL strategy within one stage: apply the
enabled matching rules in order, threading the evolving payload through
each action; a rule whose action returns nothing or an empty payload drops
the result (`none`). -/
def seqRun (rules : List ProcessingRule) (p : Payload) : Option Payload :=
  rules.foldl
    (fun acc r =>
      match acc with
      | none => none
      | some q =>
          if r.enabled && r.condition q then
            match r.action q with
            | none => none
            | some q' => if q'.isEmptyP then none else some q'
          else some q)
    (some p)

/-- Right-biased merge of two payloads (later fields win). -/
def mergeP (base upd : Payload) : Payload :=
  upd.foldl (fun acc kv => setA acc kv.1 kv.2) base

/-- Modelled from the spec, BATCH strategy within one stage: the enabled
matching rules, ordered by descending priority, each act on the stage's
input snapshot, and their outputs are folded into an accumulating merged
payload; a rule producing nothing is skipped (isolation). -/
def batchRun (rules : List ProcessingRule) (p : Payload) : Option Payload :=
  let merged := (rules.filter (fun r => r.enabled && r.condition p)).foldl
    (fun acc r =>
      match r.action p with
      | none => acc
      | some q => mergeP acc q) p
  if merged.isEmptyP then none else some merged

/-- Modelled from the spec, PARALLEL strategy within one stage: all enabled
matching rules act on the stage's input snapshot independently and the
outputs are merged (the spec leaves the merge order unspecified; this
model merges in the order the rule list is given, a permitted
deterministic choice). -/
def parRun (rules : List ProcessingRule) (p : Payload) : Option Payload :=
  batchRun rules p

/-- One stage under the selected strategy. -/
def stageApply (strategy : ProcessingStrategy)
    (rules : List ProcessingRule) (p : Payload) : Option Payload :=
  match strategy with
  | .SEQUENTIAL => seqRun rules p
  | .BATCH => batchRun rules p
  | .PARALLEL => parRun rules p

/-- Modelled from the spec: the stage loop of `process_result` — stages run
in the fixed given order; after each stage that runs, a
`(stage, timestamp)` entry is appended to `context.processing_history`;
a dropped payload short-circuits the remaining stages. -/
def runStages (proc : ResultProcessor) :
    List ProcessingStage → Option Payload → ProcessingContext → Nat →
    Option Payload × ProcessingContext
  | [], acc, ctx, _ => (acc, ctx)
  | st :: rest, acc, ctx, now =>
      match acc with
      | none => (none, ctx)
      | some p =>
          runStages proc rest
            (stageApply proc.processing_strategy (stageRules proc st) p)
            { ctx with processing_history :=
                ctx.processing_history ++ [(st, now)] }
            now

/-- Modelled from the spec: `ResultProcessor.process_result(result,
context)` — runs the payload through FILTERED → ENRICHED → PRIORITIZED and
returns the surviving payload (or nothing) with the updated context. -/
def processResult (proc : ResultProcessor) (p : Payload)
    (ctx : ProcessingContext) (now : Nat) :
    Option Payload × ProcessingContext :=
  runStages proc [.FILTERED, .ENRICHED, .PRIORITIZED] (some p) ctx now

end Lume.Proc

namespace Lume.Plugins

/-- Enumeration `PluginStatus` from `backend/plugins/interface.py`. -/
inductive PluginStatus where
  | LOADED | INITIALIZED | ACTIVE | DISABLED | ERROR
deriving DecidableEq

/-- String value of a `PluginStatus` member. -/
def PluginStatus.value : PluginStatus → String
  | .LOADED => "loaded"
  | .INITIALIZED => "initialized"
  | .ACTIVE => "active"
  | .DISABLED => "disabled"
  | .ERROR => "error"

/-- Structure `PluginResult` from `backend/plugins/interface.py`: the uniform
success/error result of a plugin operation. -/
structure PluginResult where
  success : Bool
  data : Option JVal := none
  error : Option String := none
  metadata : List (String × JVal) := []

/-- Constructor `PluginResult.error_result(error)` from `backend/plugins/interface.py`:
`PluginResult(False, None, error, metadata)` with empty metadata. -/
def PluginResult.error_result (error : String) : PluginResult :=
  { success := false, data := none, error := some error, metadata := [] }

/-- A loaded plugin as the `PluginManager` sees it: its status and its
`execute` behaviour.  A raised exception inside `execute` is embedded as
`Except.error` carrying `str(e)`. -/
structure ManagedPlugin where
  status : PluginStatus
  execute : List (String × JVal) → Except String PluginResult

/-- Structure: the `PluginManager` registry state of `backend/plugins/interface.py`:
the `plugins` map from plugin id to loaded plugin. -/
structure PluginManager where
  plugins : List (String × ManagedPlugin)

/-- Translation of `PluginManager.execute_plugin(plugin_id, context)` from
`backend/plugins/interface.py` (lines 559-587): an unknown id or a plugin
that is neither INITIALIZED nor ACTIVE yields an error `PluginResult`
without invoking the plugin; otherwise the plugin's `execute` runs, a
raised exception is caught and returned as an error `PluginResult` with
the plugin's status set to ERROR, and a normal result is returned with the
status set back to INITIALIZED.  The returned triple also records the
updated manager state and whether `execute` was invoked. -/
def PluginManager.execute_plugin (mgr : PluginManager) (plugin_id : String)
    (context : List (String × JVal)) :
    PluginResult × PluginManager × Bool :=
  match lookupA mgr.plugins plugin_id with
  | none =>
      (PluginResult.error_result ("Plugin not loaded: " ++ plugin_id),
       mgr, false)
  | some plugin =>
      if plugin.status ≠ .INITIALIZED ∧ plugin.status ≠ .ACTIVE then
        (PluginResult.error_result
          ("Plugin not ready: " ++ plugin_id ++ " (status: " ++
            plugin.status.value ++ ")"),
         mgr, false)
      else
        match plugin.execute context with
        | .ok result =>
            (result,
             ⟨setA mgr.plugins plugin_id
               { plugin with status := .INITIALIZED }⟩, true)
        | .error e =>
            (PluginResult.error_result e,
             ⟨setA mgr.plugins plugin_id
               { plugin with status := .ERROR }⟩, true)

/-- Modelled from the spec: the fault for an unresolvable method name in
`PluginCommunicator.execute_plugin` of `backend/agents/communication.py`
(absent from the tree) — "an unresolvable name fails with NotFoundFault". -/
inductive CommFault where
  | notFound (method_name : String)

/-- A plugin as seen by the communicator: its named operations (sync or
suspendable — suspension collapses in this sequential model). -/
structure DynPlugin where
  methods : List (String × (List (String × JVal) → PluginResult))

/-- Modelled from the spec:
`PluginCommunicator.execute_plugin(plugin, method_name, params)` of
`backend/agents/communication.py` (absent from the tree) — resolves the
named method on the plugin, invokes it with the params and returns its
uniform success/error result; a name that resolves to no operation fails
with `NotFoundFault`. -/
def executePluginMethod (plugin : DynPlugin) (method_name : String)
    (params : List (String × JVal)) : Except CommFault PluginResult :=
  match lookupA plugin.methods method_name with
  | none => .error (.notFound method_name)
  | some f => .ok (f params)

end Lume.Plugins

namespace Lume.Agg

/-- Enumeration `ResultType` from `backend/analysis/aggregator.py`. -/
inductive ResultType where
  | CODE_QUALITY | SECURITY | PERFORMANCE | REFACTORING | CODE_REVIEW
  | CUSTOM
deriving DecidableEq

/-- String value of a `ResultType` member. -/
def ResultType.value : ResultType → String
  | .CODE_QUALITY => "code_quality"
  | .SECURITY => "security"
  | .PERFORMANCE => "performance"
  | .REFACTORING => "refactoring"
  | .CODE_REVIEW => "code_review"
  | .CUSTOM => "custom"

/-- Enumeration `ResultPriority` from `backend/analysis/aggregator.py`. -/
inductive ResultPriority where
  | CRITICAL | HIGH | MEDIUM | LOW | INFO
deriving DecidableEq

/-- String value of a `ResultPriority` member. -/
def ResultPriority.value : ResultPriority → String
  | .CRITICAL => "critical"
  | .HIGH => "high"
  | .MEDIUM => "medium"
  | .LOW => "low"
  | .INFO => "info"

/-- The Python `Union[ResultType, str]` argument of `add_result`. -/
inductive TypeArg where
  | enum (t : ResultType)
  | str (s : String)

/-- The Python `Union[ResultPriority, str]` argument of `add_result`. -/
inductive PriorityArg where
  | enum (p : ResultPriority)
  | str (s : String)

/-- The stored result entry built by `add_result` (lines 83-92 of
`backend/analysis/aggregator.py`). -/
structure ResultRecord where
  id : String
  type : String
  source : String
  data : List (String × JVal)
  file_path : Option String
  priority : String
  tags : List String
  timestamp : Nat

/-- Structure: the `ResultAggregator` state of `backend/analysis/aggregator.py`:
`results` map, per-type `result_index`, the `result_count` counter and
`last_updated`. -/
structure ResultAggregator where
  results : List (String × ResultRecord) := []
  result_index : List (String × List String) := []
  result_count : Nat := 0
  last_updated : Nat := 0

/-- The enum-to-string conversion of `add_result` for the type argument
(lines 70-71). -/
def typeArgStr : TypeArg → String
  | .enum t => t.value
  | .str s => s

/-- The enum-to-string conversion of `add_result` for the priority
argument, defaulting to MEDIUM when absent (lines 73-76). -/
def priorityArgStr : Option PriorityArg → String
  | some (.enum p) => p.value
  | some (.str s) => s
  | none => ResultPriority.MEDIUM.value

/-- The arguments of one `add_result` call (the `time.time()` reading is
passed in as `now`). -/
structure AddCall where
  result_type : TypeArg
  source : String
  data : List (String × JVal)
  file_path : Option String := none
  priority : Option PriorityArg := none
  tags : Option (List String) := none
  now : Nat := 0

/-- Translation of `ResultAggregator.add_result` from `backend/analysis/aggregator.py`
(lines 49-105): converts enum arguments to strings, generates the id
`f"{result_type}_{source}_{self.result_count}"`, increments the counter,
stores the entry in `results`, appends the id to the per-type index and
updates `last_updated`.  Returns the result id with the updated state. -/
def addResult (agg : ResultAggregator) (c : AddCall) :
    String × ResultAggregator :=
  let rtype := typeArgStr c.result_type
  let prio := priorityArgStr c.priority
  let result_id := rtype ++ "_" ++ c.source ++ "_" ++ Nat.repr agg.result_count
  let record : ResultRecord :=
    { id := result_id, type := rtype, source := c.source, data := c.data,
      file_path := c.file_path, priority := prio,
      tags := c.tags.getD [], timestamp := c.now }
  (result_id,
   { results := setA agg.results result_id record,
     result_index := setA agg.result_index rtype
       ((lookupA agg.result_index rtype).getD [] ++ [result_id]),
     result_count := agg.result_count + 1,
     last_updated := c.now })

/-- Translation of `ResultAggregator.get_result(result_id)` from
`backend/analysis/aggregator.py` (lines 107-116): `self.results.get(...)`. -/
def getResult (agg : ResultAggregator) (result_id : String) :
    Option ResultRecord :=
  lookupA agg.results result_id

/-- A sequence of `add_result` calls (no interleaved `import_results`):
returns the ids in call order together with the final state. -/
def runAdds (agg : ResultAggregator) :
    List AddCall → List String × ResultAggregator
  | [] => ([], agg)
  | c :: cs =>
      let r := addResult agg c
      let rest := runAdds r.2 cs
      (r.1 :: rest.1, rest.2)

end Lume.Agg

namespace Lume.Agents

/-- A task currently RUNNING, for the admission-control witness. -/
def taskW : AgentTask :=
  { execution_id := "e1", status := .RUNNING, start_time := 0,
    workspace_path := "ws/e1" }

/-- A runtime at capacity (`max_concurrent_agents = 1`, one RUNNING task),
for the admission-control witness. -/
def rtFullW : AgentRuntime :=
  { status := .RUNNING, max_concurrent_agents := 1, max_execution_time := 2,
    workspace_dir := "ws", tasks := [("e1", taskW)] }

end Lume.Agents

namespace Lume.Comm

/-- A concrete REQUEST message for the correlation witness. -/
def reqW : Message :=
  createRequest "rq-1" 0 "agent-1" "plugin-1" [("action", JVal.s "analyze")]
    .HIGH

end Lume.Comm

namespace Lume.Sandbox

/-- Path resolution for the sandbox witness: `/workspace/a.py` and
`/etc/passwd` as component lists. -/
def resolveW : String → List String :=
  fun s => if s = "/workspace/a.py" then ["workspace", "a.py"]
           else ["etc", "passwd"]

/-- Domain extraction for the sandbox witness. -/
def domainOfW : String → String :=
  fun s => if s = "https://example.com/api" then "example.com"
           else "malicious.com"

/-- Network oracle for the sandbox witness. -/
def netW : String → HttpResponse := fun _ => ⟨200, "response data"⟩

end Lume.Sandbox

namespace Lume.Comm

/-- A bus with a targeted subscriber, an unrelated subscriber and a
broadcast subscriber, for the routing witness. -/
def busW : MessageBus :=
  { subscribers := [("target-1", [1]), ("other", [2]), ("*", [3])],
    queue := [], running := true }

/-- A targeted message for the routing witness. -/
def msgTargetedW : Message :=
  createRequest "m1" 0 "source-1" "target-1" [("action", JVal.s "test")]

/-- A broadcast (EVENT) message for the routing witness. -/
def msgBroadcastW : Message :=
  { id := "m2", type := .EVENT, source := "source-1", target := none,
    content := [("event_type", JVal.s "test_event")], priority := .NORMAL,
    timestamp := 0 }

end Lume.Comm

namespace Lume.Plugins

/-- The mock plugin of the communicator tests: one `analyze` operation. -/
def mockPluginW : DynPlugin :=
  { methods := [("analyze", fun _ =>
      { success := true, data := some (JVal.s "mock-result") })] }

/-- A plugin whose `execute` raises, for the manager witness. -/
def raisingPluginW : ManagedPlugin :=
  { status := .INITIALIZED, execute := fun _ => .error "boom" }

/-- A loaded but never initialized plugin, for the manager witness. -/
def stalePluginW : ManagedPlugin :=
  { status := .LOADED, execute := fun _ => .ok { success := true } }

/-- A manager holding the two witness plugins. -/
def mgrW : PluginManager :=
  ⟨[("raising-plugin", raisingPluginW), ("stale-plugin", stalePluginW)]⟩

end Lume.Plugins

namespace Lume.Comm

/-- A pending request message for the request/response witness. -/
def pendingReqW : Message :=
  createRequest "rq-9" 0 "requester" "responder" [("action", JVal.s "test")]

/-- A correlated RESPONSE arrival for the witness. -/
def responseArrW : Message :=
  createResponse "rs-9" 1 pendingReqW "responder" [("result", JVal.s "success")]

/-- A correlated ERROR arrival for the witness. -/
def errorArrW : Message :=
  createError "er-9" 1 pendingReqW "responder" "Test error" none

/-- An uncorrelated arrival for the witness. -/
def noiseArrW : Message :=
  { id := "ev-9", type := .EVENT, source := "other", timestamp := 0,
    correlation_id := some "someone-else" }

end Lume.Comm

namespace Lume.Agents

/-- A slow RUNNING task (started at time 0) for the timeout witness. -/
def slowTaskW : AgentTask :=
  { execution_id := "e9", status := .RUNNING, start_time := 0,
    workspace_path := "ws/e9" }

/-- A runtime tracking the slow task with `max_execution_time = 2`. -/
def rtSlowW : AgentRuntime :=
  { status := .RUNNING, max_concurrent_agents := 3, max_execution_time := 2,
    workspace_dir := "ws", tasks := [("e9", slowTaskW)] }

end Lume.Agents

namespace Lume.Proc

/-- The FILTERED rule of the pipeline test: drop any payload containing the
key `filter_me`. -/
def filterRuleW : ProcessingRule :=
  { name := "test-filter", description := "Test filter rule",
    stage := .FILTERED,
    condition := fun p => (lookupA p "filter_me").isSome,
    action := fun _ => none }

/-- The ENRICHED rule of the pipeline test: always set `enriched := true`. -/
def enrichRuleW : ProcessingRule :=
  { name := "test-enrich", description := "Test enrich rule",
    stage := .ENRICHED,
    condition := fun _ => true,
    action := fun p => some (setA p "enriched" (JVal.b true)) }

/-- The PRIORITIZED rule of the pipeline test: always set
`priority := "high"`. -/
def prioritizeRuleW : ProcessingRule :=
  { name := "test-prioritize", description := "Test prioritize rule",
    stage := .PRIORITIZED,
    condition := fun _ => true,
    action := fun p => some (setA p "priority" (JVal.s "high")) }

/-- The processor of the pipeline test, using the SEQUENTIAL strategy. -/
def procW : ResultProcessor :=
  { rules := [filterRuleW, enrichRuleW, prioritizeRuleW],
    processing_strategy := .SEQUENTIAL }

/-- The context of the pipeline test. -/
def ctxW : ProcessingContext :=
  { agent_id := "test-agent", result_id := "test-result", timestamp := 7 }

/-- A payload carrying the `filter_me` marker. -/
def droppedPayloadW : Payload :=
  [("message", JVal.s "Test result"), ("filter_me", JVal.b true)]

/-- A payload without the `filter_me` marker. -/
def keptPayloadW : Payload := [("message", JVal.s "Test result")]

end Lume.Proc

namespace Lume.Agg

/-- The most-significant-first decimal digits of a number (the digit list
underlying Python's / Lean's decimal rendering). -/
def msdDigits (n : Nat) : List Nat :=
  if h : n < 10 then [n] else msdDigits (n / 10) ++ [n % 10]
decreasing_by
  exact Nat.div_lt_self (by omega) (by omega)

/-- Decimal decoding of a most-significant-first digit list. -/
def decodeD (l : List Nat) : Nat := l.foldl (fun a d => 10 * a + d) 0

/-- Inverse of `Nat.digitChar` on decimal digits. -/
def charToDigit (c : Char) : Nat := c.toNat - 48

/-- The final `'_'`-separated token of a string (everything after the last
underscore). -/
def lastUnderscoreToken (s : String) : String :=
  ((s.data.reverse.takeWhile (fun c => c != '_')).reverse).asString

end Lume.Agg

/-! ## Theorems -/

namespace Lume

theorem lookupA_setA_self {α : Type} (l : List (String × α)) (k : String)
    (v : α) : lookupA (setA l k v) k = some v := by
  induction l with
  | nil => simp [setA, lookupA]
  | cons hd tl ih =>
      by_cases h : hd.1 = k
      · simp [setA, h, lookupA]
      · simp [setA, h, lookupA, ih]

theorem lookupA_setA_ne {α : Type} (l : List (String × α)) (k k' : String)
    (v : α) (h : k ≠ k') : lookupA (setA l k v) k' = lookupA l k' := by
  induction l with
  | nil => simp [setA, lookupA, h]
  | cons hd tl ih =>
      by_cases h1 : hd.1 = k
      · simp [setA, h1, lookupA, h]
      · simp [setA, h1, lookupA, ih]

theorem find?_append_first {α : Type} (p : α → Bool) (pre : List α) (a : α)
    (post : List α) (hpre : ∀ x ∈ pre, p x = false) (ha : p a = true) :
    List.find? p (pre ++ a :: post) = some a := by
  induction pre with
  | nil => simp [List.find?, ha]
  | cons hd tl ih =>
      have hhd : p hd = false := hpre hd (by simp)
      simp only [List.cons_append, List.find?, hhd]
      exact ih (fun x hx => hpre x (by simp [hx]))

theorem takeWhile_append_of_all {α : Type} (p : α → Bool) (A B : List α)
    (hA : ∀ a ∈ A, p a = true) :
    (A ++ B).takeWhile p = A ++ B.takeWhile p := by
  induction A with
  | nil => simp
  | cons hd tl ih =>
      have hhd : p hd = true := hA hd (by simp)
      simp [List.takeWhile_cons, hhd, ih (fun a ha => hA a (by simp [ha]))]

end Lume

namespace Lume.Agents

/-- C1: with `max_concurrent_agents = N` and `N` tasks currently RUNNING,
`start_agent` fails immediately with an `AdmissionFault`, is never queued,
and adds no task to the runtime's task table — every previously admitted
task is unchanged. -/
theorem startAgent_rejects_at_capacity (rt : AgentRuntime) (fresh : String)
    (now : Nat) (hfull : runningCount rt = rt.max_concurrent_agents) :
    (startAgent rt fresh now).1 = .error .capacityExceeded ∧
    (startAgent rt fresh now).2 = rt ∧
    (startAgent rt fresh now).2.tasks = rt.tasks ∧
    ∀ id, lookupA (startAgent rt fresh now).2.tasks id =
      lookupA rt.tasks id := by
  have h : rt.max_concurrent_agents ≤ runningCount rt := hfull.ge
  simp [startAgent, if_pos h]

theorem startAgent_rejects_at_capacity_witness :
    runningCount rtFullW = rtFullW.max_concurrent_agents ∧
    (startAgent rtFullW "e2" 5).1 = .error .capacityExceeded ∧
    (startAgent rtFullW "e2" 5).2 = rtFullW :=
  ⟨rfl, (startAgent_rejects_at_capacity rtFullW "e2" 5 rfl).1,
    (startAgent_rejects_at_capacity rtFullW "e2" 5 rfl).2.1⟩

end Lume.Agents

namespace Lume.Comm

/-- C2: for every REQUEST message `r`, every RESPONSE or ERROR message
produced in answer to `r` by the construction helpers `create_response` /
`create_error` has `correlation_id = r.id` and `target = r.source`. -/
theorem response_error_correlation (r : Message)
    (hreq : r.type = MessageType.REQUEST) (f1 f2 : String) (n1 n2 : Nat)
    (src1 src2 : String) (content : List (String × JVal)) (err : String)
    (details : Option (List (String × JVal))) :
    ((createResponse f1 n1 r src1 content).correlation_id = some r.id ∧
     (createResponse f1 n1 r src1 content).target = some r.source) ∧
    ((createError f2 n2 r src2 err details).correlation_id = some r.id ∧
     (createError f2 n2 r src2 err details).target = some r.source) :=
  ⟨⟨rfl, rfl⟩, ⟨rfl, rfl⟩⟩

theorem response_error_correlation_witness :
    reqW.type = MessageType.REQUEST ∧
    (((createResponse "rs-1" 1 reqW "plugin-1"
        [("result", JVal.s "success")]).correlation_id = some reqW.id ∧
      (createResponse "rs-1" 1 reqW "plugin-1"
        [("result", JVal.s "success")]).target = some reqW.source) ∧
     ((createError "er-1" 2 reqW "plugin-1" "Invalid action"
        none).correlation_id = some reqW.id ∧
      (createError "er-1" 2 reqW "plugin-1" "Invalid action"
        none).target = some reqW.source)) :=
  ⟨rfl, response_error_correlation reqW rfl "rs-1" "er-1" 1 2 "plugin-1"
    "plugin-1" [("result", JVal.s "success")] "Invalid action" none⟩

end Lume.Comm

namespace Lume.Sandbox

/-- C3: `validate_file_access(p)` returns `true` iff `p` resolves under one
of the allowed roots and raises `SandboxFault` otherwise; `validate_url`
behaves the same way over the domain allowlist, and `safe_request` on a
URL with a disallowed domain raises `SandboxFault` having made zero
network attempts. -/
theorem sandbox_allowlists (resolve : String → List String)
    (roots : List (List String)) (p : String) (domainOf : String → String)
    (doms : List String) (u : String) (net : String → HttpResponse) :
    (validateFileAccess resolve roots p = .ok true ↔
      ∃ root ∈ roots, pathUnder root (resolve p) = true) ∧
    ((∀ root ∈ roots, pathUnder root (resolve p) = false) →
      validateFileAccess resolve roots p = .error .violation) ∧
    (validateUrl domainOf doms u = .ok true ↔ domainOf u ∈ doms) ∧
    (domainOf u ∉ doms →
      validateUrl domainOf doms u = .error .violation ∧
      safeRequest net domainOf doms u = (.error .violation, 0)) := by
  refine ⟨?_, ?_, ?_, ?_⟩
  · constructor
    · intro h
      by_cases hc : roots.any (fun root => pathUnder root (resolve p)) = true
      · exact List.any_eq_true.mp hc
      · simp [validateFileAccess, hc] at h
    · intro h
      have hc : roots.any (fun root => pathUnder root (resolve p)) = true :=
        List.any_eq_true.mpr h
      simp [validateFileAccess, hc]
  · intro h
    have hc : roots.any (fun root => pathUnder root (resolve p)) = false := by
      simp only [List.any_eq_false]
      intro root hr
      simp [h root hr]
    simp [validateFileAccess, hc]
  · constructor
    · intro h
      by_cases hc : domainOf u ∈ doms
      · exact hc
      · simp [validateUrl, hc] at h
    · intro h
      simp [validateUrl, h]
  · intro h
    constructor
    · simp [validateUrl, h]
    · simp [safeRequest, validateUrl, h]

theorem sandbox_allowlists_witness :
    (validateFileAccess resolveW [["workspace"]] "/workspace/a.py" =
      .ok true) ∧
    ((∀ root ∈ [["workspace"]],
        pathUnder root (resolveW "/etc/passwd") = false) ∧
      validateFileAccess resolveW [["workspace"]] "/etc/passwd" =
        .error .violation) ∧
    (validateUrl domainOfW ["example.com"] "https://example.com/api" =
      .ok true) ∧
    (domainOfW "https://malicious.com" ∉ ["example.com"] ∧
      validateUrl domainOfW ["example.com"] "https://malicious.com" =
        .error .violation ∧
      safeRequest netW domainOfW ["example.com"] "https://malicious.com" =
        (.error .violation, 0)) := by
  refine ⟨?_, ⟨?_, ?_⟩, ?_, ⟨?_, ?_, ?_⟩⟩
  · exact (sandbox_allowlists resolveW [["workspace"]] "/workspace/a.py"
      domainOfW ["example.com"] "u" netW).1.mpr
      ⟨["workspace"], by simp, by decide⟩
  · decide
  · exact (sandbox_allowlists resolveW [["workspace"]] "/etc/passwd"
      domainOfW ["example.com"] "u" netW).2.1 (by decide)
  · exact (sandbox_allowlists resolveW [["workspace"]] "p" domainOfW
      ["example.com"] "https://example.com/api" netW).2.2.1.mpr (by decide)
  · decide
  · exact ((sandbox_allowlists resolveW [["workspace"]] "p" domainOfW
      ["example.com"] "https://malicious.com" netW).2.2.2 (by decide)).1
  · exact ((sandbox_allowlists resolveW [["workspace"]] "p" domainOfW
      ["example.com"] "https://malicious.com" netW).2.2.2 (by decide)).2

end Lume.Sandbox

namespace Lume.Comm

/-- C7: a published message with `target` set is delivered exactly to the
handlers subscribed to that target channel, in per-channel FIFO order; a
message without a target is delivered exactly to the handlers subscribed
to the broadcast channel `*`; no other subscriber receives it. -/
theorem publish_routing (bus : MessageBus) (m : Message)
    (hq : bus.queue = []) :
    (∀ t, m.target = some t →
      (dispatchAll (publish bus m)).1 =
        (channelHandlers bus t).map (fun h => (h, m)) ∧
      ∀ h, (h, m) ∈ (dispatchAll (publish bus m)).1 ↔
        h ∈ channelHandlers bus t) ∧
    (m.target = none →
      (dispatchAll (publish bus m)).1 =
        (channelHandlers bus "*").map (fun h => (h, m)) ∧
      ∀ h, (h, m) ∈ (dispatchAll (publish bus m)).1 ↔
        h ∈ channelHandlers bus "*") := by
  constructor
  · intro t ht
    have heq : (dispatchAll (publish bus m)).1 =
        (channelHandlers bus t).map (fun h => (h, m)) := by
      simp [dispatchAll, publish, hq, deliverOne, ht, channelHandlers]
    refine ⟨heq, fun h => ?_⟩
    rw [heq]
    simp
  · intro ht
    have heq : (dispatchAll (publish bus m)).1 =
        (channelHandlers bus "*").map (fun h => (h, m)) := by
      simp [dispatchAll, publish, hq, deliverOne, ht, channelHandlers]
    refine ⟨heq, fun h => ?_⟩
    rw [heq]
    simp

theorem publish_routing_witness :
    busW.queue = [] ∧
    msgTargetedW.target = some "target-1" ∧
    (dispatchAll (publish busW msgTargetedW)).1 = [(1, msgTargetedW)] ∧
    msgBroadcastW.target = none ∧
    (dispatchAll (publish busW msgBroadcastW)).1 = [(3, msgBroadcastW)] := by
  refine ⟨rfl, rfl, ?_, rfl, ?_⟩
  · rw [((publish_routing busW msgTargetedW rfl).1 "target-1" rfl).1]
    rfl
  · rw [((publish_routing busW msgBroadcastW rfl).2 rfl).1]
    rfl

end Lume.Comm

namespace Lume.Plugins

/-- C8: `execute_plugin(plugin, method_name, params)` resolves the named
method on the plugin, invokes it with the params and returns its uniform
success/error result; a method name that resolves to no operation of the
plugin fails with `NotFoundFault`. -/
theorem executePluginMethod_spec (plugin : DynPlugin) (method_name : String)
    (params : List (String × JVal)) :
    (∀ f, lookupA plugin.methods method_name = some f →
      executePluginMethod plugin method_name params = .ok (f params)) ∧
    (lookupA plugin.methods method_name = none →
      executePluginMethod plugin method_name params =
        .error (.notFound method_name)) := by
  constructor
  · intro f hf
    simp [executePluginMethod, hf]
  · intro hf
    simp [executePluginMethod, hf]

theorem executePluginMethod_spec_witness :
    (lookupA mockPluginW.methods "analyze").isSome = true ∧
    executePluginMethod mockPluginW "analyze" [("file", JVal.s "test.py")] =
      .ok { success := true, data := some (JVal.s "mock-result") } ∧
    lookupA mockPluginW.methods "non_existent_method" = none ∧
    executePluginMethod mockPluginW "non_existent_method" [] =
      .error (.notFound "non_existent_method") :=
  ⟨rfl,
   (executePluginMethod_spec mockPluginW "analyze"
      [("file", JVal.s "test.py")]).1 _ rfl,
   rfl,
   (executePluginMethod_spec mockPluginW "non_existent_method" []).2 rfl⟩

/-- C9: `PluginManager.execute_plugin(plugin_id, context)` never propagates
an exception: for an unknown `plugin_id` it returns an error
`PluginResult` without invoking the plugin; for a loaded plugin whose
status is neither INITIALIZED nor ACTIVE it returns an error
`PluginResult` without invoking the plugin; and when the plugin's
`execute` raises, the exception is caught and returned as an error
`PluginResult` carrying the exception's message, with the plugin's status
set to ERROR. -/
theorem execute_plugin_never_raises (mgr : PluginManager) (pid : String)
    (ctx : List (String × JVal)) :
    (lookupA mgr.plugins pid = none →
      mgr.execute_plugin pid ctx =
        (PluginResult.error_result ("Plugin not loaded: " ++ pid), mgr,
         false)) ∧
    (∀ plugin, lookupA mgr.plugins pid = some plugin →
      plugin.status ≠ .INITIALIZED → plugin.status ≠ .ACTIVE →
      mgr.execute_plugin pid ctx =
        (PluginResult.error_result
          ("Plugin not ready: " ++ pid ++ " (status: " ++
            plugin.status.value ++ ")"), mgr, false)) ∧
    (∀ plugin e, lookupA mgr.plugins pid = some plugin →
      (plugin.status = .INITIALIZED ∨ plugin.status = .ACTIVE) →
      plugin.execute ctx = .error e →
      mgr.execute_plugin pid ctx =
        (PluginResult.error_result e,
         ⟨setA mgr.plugins pid { plugin with status := .ERROR }⟩, true) ∧
      (PluginResult.error_result e).success = false ∧
      (PluginResult.error_result e).error = some e ∧
      lookupA (setA mgr.plugins pid { plugin with status := .ERROR }) pid =
        some { plugin with status := .ERROR }) := by
  refine ⟨?_, ?_, ?_⟩
  · intro h
    simp [PluginManager.execute_plugin, h]
  · intro plugin hlk h1 h2
    simp [PluginManager.execute_plugin, hlk, h1, h2]
  · intro plugin e hlk hready hraise
    have hst : ¬(plugin.status ≠ .INITIALIZED ∧ plugin.status ≠ .ACTIVE) := by
      rcases hready with h | h <;> simp [h]
    refine ⟨?_, rfl, rfl, lookupA_setA_self _ _ _⟩
    simp [PluginManager.execute_plugin, hlk, hst, hraise]

theorem execute_plugin_never_raises_witness :
    (lookupA mgrW.plugins "missing-plugin" = none ∧
      mgrW.execute_plugin "missing-plugin" [] =
        (PluginResult.error_result "Plugin not loaded: missing-plugin",
         mgrW, false)) ∧
    (lookupA mgrW.plugins "stale-plugin" = some stalePluginW ∧
      mgrW.execute_plugin "stale-plugin" [] =
        (PluginResult.error_result
          "Plugin not ready: stale-plugin (status: loaded)", mgrW,
         false)) ∧
    (lookupA mgrW.plugins "raising-plugin" = some raisingPluginW ∧
      raisingPluginW.execute [] = .error "boom" ∧
      (mgrW.execute_plugin "raising-plugin" []).1 =
        PluginResult.error_result "boom" ∧
      lookupA (mgrW.execute_plugin "raising-plugin" []).2.1.plugins
        "raising-plugin" =
        some { raisingPluginW with status := .ERROR }) := by
  refine ⟨⟨rfl, ?_⟩, ⟨rfl, ?_⟩, ⟨rfl, rfl, ?_, ?_⟩⟩
  · exact (execute_plugin_never_raises mgrW "missing-plugin" []).1 rfl
  · exact (execute_plugin_never_raises mgrW "stale-plugin" []).2.1
      stalePluginW rfl (by decide) (by decide)
  · rw [((execute_plugin_never_raises mgrW "raising-plugin" []).2.2
      raisingPluginW "boom" rfl (Or.inl rfl) rfl).1]
  · rw [((execute_plugin_never_raises mgrW "raising-plugin" []).2.2
      raisingPluginW "boom" rfl (Or.inl rfl) rfl).1]
    exact lookupA_setA_self _ _ _

end Lume.Plugins

namespace Lume.Comm

/-- C4: `request(m, T)` raises `MessagingTimeoutFault` when no message
correlated to `m.id` arrives within `T`; when the first correlated arrival
within `T` is an ERROR-type message it raises `RemoteError` carrying that
message's content; otherwise it returns the correlated message. -/
theorem requestCall_spec (m : Message) (T : Nat)
    (arrivals pre post : List (Nat × Message)) (a : Nat × Message) :
    ((∀ x ∈ arrivals, ¬(x.1 ≤ T ∧ x.2.correlation_id = some m.id)) →
      requestCall m T arrivals = .error .messagingTimeout) ∧
    (arrivals = pre ++ a :: post →
      (∀ x ∈ pre, ¬(x.1 ≤ T ∧ x.2.correlation_id = some m.id)) →
      a.1 ≤ T → a.2.correlation_id = some m.id →
      (a.2.type = .ERROR →
        requestCall m T arrivals = .error (.remoteError a.2.content)) ∧
      (a.2.type ≠ .ERROR → requestCall m T arrivals = .ok a.2)) := by
  constructor
  · intro h
    have hnone : arrivals.find?
        (fun x => decide (x.1 ≤ T) &&
          decide (x.2.correlation_id = some m.id)) = none := by
      rw [List.find?_eq_none]
      intro x hx
      simp only [Bool.and_eq_true, decide_eq_true_eq]
      exact h x hx
    simp [requestCall, hnone]
  · intro heq hpre ha1 ha2
    have hfind : arrivals.find?
        (fun x => decide (x.1 ≤ T) &&
          decide (x.2.correlation_id = some m.id)) = some a := by
      rw [heq]
      apply find?_append_first
      · intro x hx
        simp only [Bool.and_eq_false_iff, decide_eq_false_iff_not]
        have := hpre x hx
        by_cases hx1 : x.1 ≤ T
        · right
          intro hc
          exact this ⟨hx1, hc⟩
        · left
          simp [hx1]
      · simp [ha1, ha2]
    constructor
    · intro herr
      simp [requestCall, hfind, herr]
    · intro herr
      simp [requestCall, hfind, herr]

theorem requestCall_spec_witness :
    ((1, noiseArrW).1 ≤ 10 ∧ (1, noiseArrW).2.correlation_id ≠
      some pendingReqW.id) ∧
    requestCall pendingReqW 10 [] = .error .messagingTimeout ∧
    requestCall pendingReqW 10 [(1, noiseArrW)] =
      .error .messagingTimeout ∧
    requestCall pendingReqW 10 [(1, noiseArrW), (2, responseArrW)] =
      .ok responseArrW ∧
    requestCall pendingReqW 10 [(1, noiseArrW), (2, errorArrW)] =
      .error (.remoteError errorArrW.content) := by
  refine ⟨⟨by decide, by decide⟩, ?_, ?_, ?_, ?_⟩
  · exact (requestCall_spec pendingReqW 10 [] [] [] (0, noiseArrW)).1
      (by intro x hx; simp at hx)
  · exact (requestCall_spec pendingReqW 10 [(1, noiseArrW)] [] []
      (0, noiseArrW)).1
      (by intro x hx; simp at hx; rw [hx]; decide)
  · exact ((requestCall_spec pendingReqW 10
      [(1, noiseArrW), (2, responseArrW)] [(1, noiseArrW)] []
      (2, responseArrW)).2 rfl
      (by intro x hx; simp at hx; rw [hx]; decide)
      (by decide) (by decide)).2 (by decide)
  · exact ((requestCall_spec pendingReqW 10
      [(1, noiseArrW), (2, errorArrW)] [(1, noiseArrW)] []
      (2, errorArrW)).2 rfl
      (by intro x hx; simp at hx; rw [hx]; decide)
      (by decide) (by decide)).1 (by decide)

end Lume.Comm

namespace Lume.Agents

theorem monitorCheck_of_not_running (maxExec now : Nat) (t : AgentTask)
    (h : t.status ≠ .RUNNING) : monitorCheck maxExec now t = t := by
  simp only [monitorCheck]
  rw [if_neg]
  intro hc
  exact h hc.1

theorem runMonitor_of_not_running (maxExec : Nat) (ticks : List Nat)
    (t : AgentTask) (h : t.status ≠ .RUNNING) :
    runMonitor maxExec ticks t = t := by
  induction ticks with
  | nil => rfl
  | cons tick rest ih =>
      show runMonitor maxExec rest (monitorCheck maxExec tick t) = t
      rw [monitorCheck_of_not_running maxExec tick t h]
      exact ih

theorem runMonitor_times_out (maxExec : Nat) (ticks : List Nat)
    (t : AgentTask) (hrun : t.status = .RUNNING)
    (hex : ∃ tick ∈ ticks, t.start_time + maxExec ≤ tick) :
    (runMonitor maxExec ticks t).status = .ERROR ∧
    (runMonitor maxExec ticks t).error = some (timeoutMsg maxExec) := by
  induction ticks with
  | nil => simp at hex
  | cons tick rest ih =>
      have hcons : runMonitor maxExec (tick :: rest) t =
          runMonitor maxExec rest (monitorCheck maxExec tick t) := rfl
      by_cases hfire : t.start_time + maxExec ≤ tick
      · have hstep : monitorCheck maxExec tick t =
            { t with status := .ERROR, error := some (timeoutMsg maxExec) } := by
          simp [monitorCheck, hrun, hfire]
        rw [hcons, hstep, runMonitor_of_not_running _ _ _ (by simp)]
        exact ⟨rfl, rfl⟩
      · have hstep : monitorCheck maxExec tick t = t := by
          simp only [monitorCheck]
          rw [if_neg]
          intro hc
          exact hfire hc.2
        rw [hcons, hstep]
        apply ih
        rcases hex with ⟨tk, htk, hle⟩
        rcases List.mem_cons.mp htk with h | h
        · exact absurd (h ▸ hle) hfire
        · exact ⟨tk, h, hle⟩

/-- C6: an agent task whose execution exceeds `max_execution_time` is
marked ERROR by the timeout monitor with a message indicating a timeout,
and this terminal status is observable through `get_agent_status` once a
monitor poll at or after the expiry time has run. -/
theorem timeout_marks_error_observable (rt : AgentRuntime) (id : String)
    (t : AgentTask) (ticks : List Nat)
    (hlk : lookupA rt.tasks id = some t) (hrun : t.status = .RUNNING)
    (hex : ∃ tick ∈ ticks, t.start_time + rt.max_execution_time ≤ tick) :
    (runMonitor rt.max_execution_time ticks t).status = .ERROR ∧
    (runMonitor rt.max_execution_time ticks t).error =
      some (timeoutMsg rt.max_execution_time) ∧
    getAgentStatus
      { rt with tasks := (setA rt.tasks id
          (runMonitor rt.max_execution_time ticks t)) } id =
      .ok (runMonitor rt.max_execution_time ticks t) := by
  obtain ⟨h1, h2⟩ := runMonitor_times_out rt.max_execution_time ticks t hrun hex
  refine ⟨h1, h2, ?_⟩
  simp [getAgentStatus, lookupA_setA_self]

theorem timeout_marks_error_observable_witness :
    (lookupA rtSlowW.tasks "e9" = some slowTaskW ∧
      slowTaskW.status = .RUNNING ∧
      slowTaskW.start_time + rtSlowW.max_execution_time ≤ 3) ∧
    (runMonitor rtSlowW.max_execution_time [1, 3] slowTaskW).status =
      .ERROR ∧
    (runMonitor rtSlowW.max_execution_time [1, 3] slowTaskW).error =
      some (timeoutMsg rtSlowW.max_execution_time) := by
  refine ⟨⟨rfl, rfl, by decide⟩, ?_, ?_⟩
  · exact (timeout_marks_error_observable rtSlowW "e9" slowTaskW [1, 3] rfl
      rfl ⟨3, by decide, by decide⟩).1
  · exact (timeout_marks_error_observable rtSlowW "e9" slowTaskW [1, 3] rfl
      rfl ⟨3, by decide, by decide⟩).2.1

end Lume.Agents

namespace Lume.Proc

theorem mem_insertDesc (r x : ProcessingRule) (l : List ProcessingRule) :
    x ∈ insertDesc r l ↔ x = r ∨ x ∈ l := by
  induction l with
  | nil => simp [insertDesc]
  | cons hd tl ih =>
      by_cases h : hd.priority ≤ r.priority
      · simp [insertDesc, h]
      · simp only [insertDesc, if_neg h, List.mem_cons, ih]
        tauto

theorem mem_sortDesc (x : ProcessingRule) (l : List ProcessingRule) :
    x ∈ sortDesc l ↔ x ∈ l := by
  induction l with
  | nil => simp [sortDesc]
  | cons hd tl ih => simp [sortDesc, mem_insertDesc, ih]

theorem seqRun_of_no_match (rules : List ProcessingRule) (p : Payload)
    (h : ∀ r ∈ rules, r.enabled = true → r.condition p = false) :
    seqRun rules p = some p := by
  induction rules with
  | nil => rfl
  | cons r rest ih =>
      have hstep : (if r.enabled && r.condition p then
          (match r.action p with
           | none => none
           | some q' => if q'.isEmptyP then none else some q')
          else some p) = some p := by
        rw [if_neg]
        intro hc
        rcases Bool.and_eq_true_iff.mp hc with ⟨he, hcnd⟩
        rw [h r (by simp) he] at hcnd
        exact Bool.false_ne_true hcnd
      show List.foldl _ (if r.enabled && r.condition p then _ else some p) rest = some p
      rw [hstep]
      exact ih (fun r' hr' => h r' (by simp [hr']))

/-- C5: under the SEQUENTIAL strategy, `process_result(result, context)`
returns nothing when the FILTERED stage drops the payload (the remaining
stages are short-circuited and only the FILTERED history entry is
appended); when no enabled FILTERED rule matches, the returned payload is
the result of threading the payload through every enabled matching
ENRICHED rule and then every enabled matching PRIORITIZED rule, the
stages running in the fixed order FILTERED → ENRICHED → PRIORITIZED, and
a `(stage, timestamp)` entry is appended to `context.processing_history`
after each stage. -/
theorem process_result_sequential (proc : ResultProcessor) (p : Payload)
    (ctx : ProcessingContext) (now : Nat)
    (hstrat : proc.processing_strategy = .SEQUENTIAL) :
    (seqRun (stageRules proc .FILTERED) p = none →
      processResult proc p ctx now =
        (none, { ctx with processing_history :=
          ctx.processing_history ++ [(.FILTERED, now)] })) ∧
    ((∀ r ∈ proc.rules, r.stage = .FILTERED → r.enabled = true →
        r.condition p = false) →
      ∀ q1 q2, seqRun (stageRules proc .ENRICHED) p = some q1 →
        seqRun (stageRules proc .PRIORITIZED) q1 = some q2 →
        processResult proc p ctx now =
          (some q2, { ctx with processing_history :=
            ctx.processing_history ++
              [(.FILTERED, now), (.ENRICHED, now), (.PRIORITIZED, now)] })) := by
  constructor
  · intro hdrop
    simp [processResult, runStages, stageApply, hstrat, hdrop]
  · intro hnomatch q1 q2 henr hpri
    have hfilter : seqRun (stageRules proc .FILTERED) p = some p := by
      apply seqRun_of_no_match
      intro r hr
      have hr' : r ∈ proc.rules.filter (fun r => r.stage = ProcessingStage.FILTERED) :=
        (mem_sortDesc r _).mp hr
      rcases List.mem_filter.mp hr' with ⟨hmem, hst⟩
      exact hnomatch r hmem (by simpa using hst)
    simp [processResult, runStages, stageApply, hstrat, hfilter, henr, hpri]

theorem process_result_sequential_witness :
    procW.processing_strategy = .SEQUENTIAL ∧
    seqRun (stageRules procW .FILTERED) droppedPayloadW = none ∧
    processResult procW droppedPayloadW ctxW 7 =
      (none, { ctxW with processing_history := [(.FILTERED, 7)] }) ∧
    processResult procW keptPayloadW ctxW 7 =
      (some [("message", JVal.s "Test result"),
             ("enriched", JVal.b true), ("priority", JVal.s "high")],
       { ctxW with processing_history :=
          [(.FILTERED, 7), (.ENRICHED, 7), (.PRIORITIZED, 7)] }) := by
  refine ⟨rfl, rfl, ?_, ?_⟩
  · exact (process_result_sequential procW droppedPayloadW ctxW 7 rfl).1 rfl
  · apply (process_result_sequential procW keptPayloadW ctxW 7 rfl).2
    · intro r hr hst he
      simp only [procW] at hr
      rcases List.mem_cons.mp hr with h | h
      · rw [h]; rfl
      · rcases List.mem_cons.mp h with h' | h'
        · rw [h'] at hst; exact absurd hst (by decide)
        · rcases List.mem_cons.mp h' with h'' | h''
          · rw [h''] at hst; exact absurd hst (by decide)
          · simp at h''
    · rfl
    · rfl

end Lume.Proc

namespace Lume.Agg

theorem toDigitsCore_append (f : Nat) : ∀ (n : Nat) (l : List Char),
    Nat.toDigitsCore 10 f n l = Nat.toDigitsCore 10 f n [] ++ l := by
  induction f with
  | zero => intro n l; simp [Nat.toDigitsCore]
  | succ f ih =>
      intro n l
      simp only [Nat.toDigitsCore]
      by_cases h : n / 10 = 0
      · simp [h]
      · simp only [h, if_neg, ite_false]
        rw [ih (n / 10) (Nat.digitChar (n % 10) :: l),
            ih (n / 10) [Nat.digitChar (n % 10)]]
        simp

theorem toDigitsCore_eq_msd (f : Nat) : ∀ n : Nat, n < f →
    Nat.toDigitsCore 10 f n [] = (msdDigits n).map Nat.digitChar := by
  induction f with
  | zero => intro n h; omega
  | succ f ih =>
      intro n h
      rw [msdDigits]
      simp only [Nat.toDigitsCore]
      by_cases h10 : n < 10
      · have hdiv : n / 10 = 0 := Nat.div_eq_of_lt h10
        simp [hdiv, h10, Nat.mod_eq_of_lt h10]
      · have hdiv : n / 10 ≠ 0 := by omega
        have hlt : n / 10 < f := by
          have h1 : n / 10 < n := Nat.div_lt_self (by omega) (by omega)
          omega
        simp only [hdiv, ite_false, if_neg, dif_neg h10]
        rw [toDigitsCore_append, ih (n / 10) hlt]
        simp

theorem repr_data (n : Nat) :
    (Nat.repr n).data = (msdDigits n).map Nat.digitChar :=
  toDigitsCore_eq_msd (n + 1) n (Nat.lt_succ_self n)

theorem msd_all_lt10 (n : Nat) : ∀ d ∈ msdDigits n, d < 10 := by
  induction n using Nat.strong_induction_on with
  | _ n ih =>
      rw [msdDigits]
      by_cases h : n < 10
      · simp [h]
      · simp only [dif_neg h, List.mem_append, List.mem_singleton]
        intro d hd
        rcases hd with hd | hd
        · exact ih (n / 10) (Nat.div_lt_self (by omega) (by omega)) d hd
        · omega

theorem decode_msd (n : Nat) : decodeD (msdDigits n) = n := by
  induction n using Nat.strong_induction_on with
  | _ n ih =>
      rw [msdDigits]
      by_cases h : n < 10
      · simp [decodeD, h]
      · have hrec := ih (n / 10) (Nat.div_lt_self (by omega) (by omega))
        simp only [dif_neg h, decodeD, List.foldl_append, List.foldl_cons,
          List.foldl_nil]
        simp only [decodeD] at hrec
        rw [hrec]
        omega

theorem charToDigit_digitChar : ∀ d, d < 10 →
    charToDigit (Nat.digitChar d) = d := by decide

theorem map_charToDigit_digitChar (l : List Nat) (h : ∀ d ∈ l, d < 10) :
    (l.map Nat.digitChar).map charToDigit = l := by
  induction l with
  | nil => rfl
  | cons d rest ih =>
      simp only [List.map_cons, List.cons.injEq]
      exact ⟨charToDigit_digitChar d (h d (by simp)),
        ih (fun d' hd' => h d' (by simp [hd']))⟩

theorem repr_injective : Function.Injective Nat.repr := by
  intro m n h
  have hd : (msdDigits m).map Nat.digitChar = (msdDigits n).map Nat.digitChar := by
    rw [← repr_data, ← repr_data, h]
  have hmsd : msdDigits m = msdDigits n := by
    rw [← map_charToDigit_digitChar (msdDigits m) (msd_all_lt10 m),
        ← map_charToDigit_digitChar (msdDigits n) (msd_all_lt10 n), hd]
  rw [← decode_msd m, ← decode_msd n, hmsd]

theorem digitChar_ne_underscore : ∀ d, d < 10 →
    (Nat.digitChar d != '_') = true := by decide

theorem repr_no_underscore (n : Nat) :
    ∀ c ∈ (Nat.repr n).data, (c != '_') = true := by
  rw [repr_data]
  intro c hc
  rcases List.mem_map.mp hc with ⟨d, hd, rfl⟩
  exact digitChar_ne_underscore d (msd_all_lt10 n d hd)

theorem lastUnderscoreToken_concat (t s : String) (k : Nat) :
    lastUnderscoreToken (t ++ "_" ++ s ++ "_" ++ Nat.repr k) = Nat.repr k := by
  have hdata : (t ++ "_" ++ s ++ "_" ++ Nat.repr k).data =
      t.data ++ '_' :: s.data ++ '_' :: (Nat.repr k).data := by
    simp [String.data_append]
  have hrev : (t.data ++ '_' :: s.data ++ '_' :: (Nat.repr k).data).reverse =
      (Nat.repr k).data.reverse ++
        '_' :: (s.data.reverse ++ '_' :: t.data.reverse) := by
    simp
  have htake : ((Nat.repr k).data.reverse ++
      '_' :: (s.data.reverse ++ '_' :: t.data.reverse)).takeWhile
        (fun c => c != '_') = (Nat.repr k).data.reverse := by
    rw [takeWhile_append_of_all _ _ _
      (fun c hc => repr_no_underscore k c (List.mem_reverse.mp hc))]
    simp [List.takeWhile_cons]
  show ((_ : List Char).takeWhile _).reverse.asString = _
  rw [hdata, hrev, htake, List.reverse_reverse]
  rfl

theorem addResult_count (agg : ResultAggregator) (c : AddCall) :
    (addResult agg c).2.result_count = agg.result_count + 1 := rfl

theorem addResult_lastTok (agg : ResultAggregator) (c : AddCall) :
    lastUnderscoreToken (addResult agg c).1 = Nat.repr agg.result_count :=
  lastUnderscoreToken_concat _ _ _

theorem runAdds_map_lastTok (calls : List AddCall) :
    ∀ agg : ResultAggregator,
    ((runAdds agg calls).1).map lastUnderscoreToken =
      (List.range calls.length).map
        (fun i => Nat.repr (agg.result_count + i)) := by
  induction calls with
  | nil => intro agg; rfl
  | cons c cs ih =>
      intro agg
      show lastUnderscoreToken (addResult agg c).1 ::
          ((runAdds (addResult agg c).2 cs).1).map lastUnderscoreToken = _
      rw [addResult_lastTok, ih]
      simp only [addResult_count, List.length_cons, List.range_succ_eq_map,
        List.map_cons, List.map_map]
      congr 1
      apply List.map_congr_left
      intro i hi
      show Nat.repr (agg.result_count + 1 + i) =
        Nat.repr (agg.result_count + Nat.succ i)
      congr 1
      omega

theorem runAdds_nodup (agg : ResultAggregator) (calls : List AddCall) :
    ((runAdds agg calls).1).Nodup := by
  apply List.Nodup.of_map lastUnderscoreToken
  rw [runAdds_map_lastTok]
  apply List.Nodup.map
  · intro a b hab
    have := repr_injective hab
    omega
  · exact List.nodup_range _

/-- C10: on a single `ResultAggregator`, for every sequence of `add_result`
calls with no interleaved `import_results`, the returned ids are pairwise
distinct — `result_count` increases by one on every call and appears,
rendered in decimal, as the id's final `'_'`-separated suffix — and
immediately after each call, `get_result` applied to the returned id
yields the stored record whose id, type, source, data and priority fields
match the (string-normalized) arguments of that call. -/
theorem add_result_unique_retrievable (agg : ResultAggregator) (c : AddCall)
    (calls : List AddCall) :
    (addResult agg c).2.result_count = agg.result_count + 1 ∧
    lastUnderscoreToken (addResult agg c).1 = Nat.repr agg.result_count ∧
    getResult (addResult agg c).2 (addResult agg c).1 =
      some { id := (addResult agg c).1,
             type := typeArgStr c.result_type,
             source := c.source, data := c.data, file_path := c.file_path,
             priority := priorityArgStr c.priority, tags := c.tags.getD [],
             timestamp := c.now } ∧
    ((runAdds agg calls).1).Nodup := by
  refine ⟨rfl, addResult_lastTok agg c, ?_, runAdds_nodup agg calls⟩
  exact lookupA_setA_self _ _ _

end Lume.Agg
